import Mathlib

/-!
# Member-account service (`src/src/User.go`, `src/main.go`)

A shallow embedding of the five request handlers of package `api` and of the two
password helpers, followed by the properties proved about them.

Modelling conventions:

* The package-level variable `members` (a Go `map[string]Member`) becomes an explicit
  store value that every handler receives and returns.  The store is a finite
  association list with the three map operations the handlers use: lookup
  (`members[k]` with the comma-ok form), assignment (`members[k] = v`) and `delete`.
* `gin.Context` is outside the repository.  What a handler takes from it is passed as
  an argument: the value of `c.Query("email")`, and the outcome of `c.ShouldBindJSON`
  (either the binding error or the decoded value of the target type).  What a handler
  hands to `c.JSON` is returned as a `Response` (status code and payload value).
* `golang.org/x/crypto/bcrypt` is outside the repository.  Its two entry points and the
  constant `DefaultCost` are taken as a parameter (`Bcrypt`).  `GenerateFromPassword`
  draws a random salt, so it receives the randomness of the call as an argument.
* `time.Time` is outside the repository.  The handlers only call `Year()` on it.
* One request is handled at a time (data races between handlers are not modelled).
-/

namespace api

/-! ## Data model -/

/-- Stand-in for `time.Time`: the calendar year returned by `Year()` together with the
remaining components of the instant, which no handler inspects.  `Year()` of a Go
`time.Time` stays far inside the 64-bit range, so the subtraction in `ViewProfile` is
exact integer subtraction. -/
structure Time where
  year : Int
  month : Nat
  day : Nat
  nanoOfDay : Nat
  deriving DecidableEq, Repr

/-- Method `Year()` of `time.Time`. -/
def Time.Year (t : Time) : Int := t.year

/-- Struct `Member` (User.go, lines 12-21). -/
structure Member where
  Email : String
  Password : String
  Name : String
  DateOfBirth : Time
  Gender : String
  Address : String
  Subscribed : Bool
  Age : Int
  deriving DecidableEq, Repr

/-- Type of the package variable `members` (User.go, line 23): a finite map from
strings to members, kept as an association list. -/
abbrev Store := List (String × Member)

/-- Map lookup in comma-ok form, `member, exists := members[k]`: `none` stands for
`exists == false`. -/
def Store.get : Store → String → Option Member
  | [], _ => none
  | (k', m') :: rest, k => if k' = k then some m' else Store.get rest k

/-- Map assignment `members[k] = m`: replaces the entry of `k` or adds one. -/
def Store.put : Store → String → Member → Store
  | [], k, m => [(k, m)]
  | (k', m') :: rest, k, m =>
    if k' = k then (k, m) :: rest else (k', m') :: Store.put rest k m

/-- Builtin `delete(members, k)`: removes the entry of `k`, if any. -/
def Store.delete : Store → String → Store
  | [], _ => []
  | (k', m') :: rest, k =>
    if k' = k then Store.delete rest k else (k', m') :: Store.delete rest k

/-- The two entry points of the bcrypt package used by User.go, and its constant
`DefaultCost`.  A Go `error` is `none` for `nil` and `some msg` otherwise.
`GenerateFromPassword rand password cost` returns the pair `(bytes, err)`. -/
structure Bcrypt where
  DefaultCost : Int
  GenerateFromPassword : Nat → String → Int → String × Option String
  CompareHashAndPassword : String → String → Option String

/-- What surrounds one request: the reading of `time.Now()` and the randomness
available to the hashing primitive. -/
structure World where
  now : Time
  rand : Nat
  deriving DecidableEq, Repr

/-- Anonymous struct `updatedData` of `EditProfile` (User.go, lines 69-74). -/
structure UpdatedData where
  DateOfBirth : Time
  Gender : String
  Address : String
  Subscribed : Bool
  deriving DecidableEq, Repr

/-- Anonymous struct `changePasswordData` of `ChangePassword` (User.go, lines 103-108). -/
structure ChangePasswordData where
  Email : String
  CurrentPassword : String
  NewPassword : String
  ConfirmPassword : String
  deriving DecidableEq, Repr

/-- Outcome of `c.ShouldBindJSON(&target)`: the error, or the decoded target. -/
abbrev Bound (α : Type) := Except String α

/-- Payload handed to `c.JSON`: a `gin.H` with key "error", with key "message", with
keys "message" and "member", or a bare `Member`. -/
inductive Payload where
  | error (msg : String)
  | message (msg : String)
  | messageMember (msg : String) (member : Member)
  | member (member : Member)
  deriving DecidableEq, Repr

/-- One call of `c.JSON(status, payload)`. -/
structure Response where
  status : Nat
  payload : Payload
  deriving DecidableEq, Repr

/-- Constant `http.StatusOK`. -/
def StatusOK : Nat := 200
/-- Constant `http.StatusBadRequest`. -/
def StatusBadRequest : Nat := 400
/-- Constant `http.StatusUnauthorized`. -/
def StatusUnauthorized : Nat := 401
/-- Constant `http.StatusNotFound`. -/
def StatusNotFound : Nat := 404
/-- Constant `http.StatusInternalServerError`. -/
def StatusInternalServerError : Nat := 500

/-! ## Password helpers (User.go, lines 143-151) -/

/-- Function `HashPassword`: returns `string(bytes), err`. -/
def HashPassword (b : Bcrypt) (rand : Nat) (password : String) : String × Option String :=
  let r := b.GenerateFromPassword rand password b.DefaultCost
  (r.1, r.2)

/-- Function `CheckPasswordHash`: returns `err == nil`. -/
def CheckPasswordHash (b : Bcrypt) (hashedPassword password : String) : Bool :=
  let err := b.CompareHashAndPassword hashedPassword password
  err.isNone

/-! ## Handlers -/

/-- Handler `Register` (User.go, lines 25-42). -/
def Register (b : Bcrypt) (w : World) (members : Store) (bind : Bound Member) :
    Response × Store :=
  match bind with
  | .error err => (⟨StatusBadRequest, .error err⟩, members)
  | .ok newMember =>
    match HashPassword b w.rand newMember.Password with
    | (_, some _) => (⟨StatusInternalServerError, .error "Failed to hash password"⟩, members)
    | (hashedPassword, none) =>
      let newMember := { newMember with Password := hashedPassword }
      (⟨StatusOK, .messageMember "Registration successful" newMember⟩,
        members.put newMember.Email newMember)

/-- Handler `ViewProfile` (User.go, lines 44-58). -/
def ViewProfile (w : World) (members : Store) (email : String) : Response × Store :=
  match members.get email with
  | none => (⟨StatusNotFound, .error "Member not found"⟩, members)
  | some member =>
    let currentTime := w.now
    let age := currentTime.Year - member.DateOfBirth.Year
    let member := { member with Age := age }
    (⟨StatusOK, .member member⟩, members)

/-- Handler `EditProfile` (User.go, lines 60-88). -/
def EditProfile (members : Store) (email : String) (bind : Bound UpdatedData) :
    Response × Store :=
  match members.get email with
  | none => (⟨StatusNotFound, .error "Member not found"⟩, members)
  | some member =>
    match bind with
    | .error err => (⟨StatusBadRequest, .error err⟩, members)
    | .ok updatedData =>
      let member := { member with
        DateOfBirth := updatedData.DateOfBirth
        Gender := updatedData.Gender
        Address := updatedData.Address
        Subscribed := updatedData.Subscribed }
      (⟨StatusOK, .messageMember "Profile updated" member⟩, members.put email member)

/-- Handler `DeleteProfile` (User.go, lines 90-100). -/
def DeleteProfile (members : Store) (email : String) : Response × Store :=
  match members.get email with
  | none => (⟨StatusNotFound, .error "Member not found"⟩, members)
  | some _ =>
    (⟨StatusOK, .message "Member deleted successfully"⟩, members.delete email)

/-- Handler `ChangePassword` (User.go, lines 102-141). -/
def ChangePassword (b : Bcrypt) (w : World) (members : Store)
    (bind : Bound ChangePasswordData) : Response × Store :=
  match bind with
  | .error err => (⟨StatusBadRequest, .error err⟩, members)
  | .ok changePasswordData =>
    match members.get changePasswordData.Email with
    | none => (⟨StatusNotFound, .error "Member not found"⟩, members)
    | some member =>
      if !CheckPasswordHash b member.Password changePasswordData.CurrentPassword then
        (⟨StatusUnauthorized, .error "Current password is incorrect"⟩, members)
      else if changePasswordData.NewPassword != changePasswordData.ConfirmPassword then
        (⟨StatusBadRequest, .error "New password and confirm password do not match"⟩, members)
      else
        match HashPassword b w.rand changePasswordData.NewPassword with
        | (_, some _) =>
          (⟨StatusInternalServerError, .error "Failed to hash new password"⟩, members)
        | (hashedNewPassword, none) =>
          let member := { member with Password := hashedNewPassword }
          (⟨StatusOK, .message "Password changed successfully"⟩,
            members.put changePasswordData.Email member)

/-! ## Routing (main.go, lines 14-18) -/

/-- One request as routed by `main`: the route together with what the handler reads
from the request. -/
inductive Request where
  | register (bind : Bound Member)
  | viewProfile (email : String)
  | editProfile (email : String) (bind : Bound UpdatedData)
  | deleteProfile (email : String)
  | changePassword (bind : Bound ChangePasswordData)

/-- Dispatch of one request to its handler. -/
def serve (b : Bcrypt) (members : Store) (w : World) (r : Request) : Response × Store :=
  match r with
  | .register bind => Register b w members bind
  | .viewProfile email => ViewProfile w members email
  | .editProfile email bind => EditProfile members email bind
  | .deleteProfile email => DeleteProfile members email
  | .changePassword bind => ChangePassword b w members bind

/-- The store after serving a sequence of requests one after the other. -/
def serveAll (b : Bcrypt) (members : Store) : List (World × Request) → Store
  | [] => members
  | (w, r) :: rest => serveAll b (serve b members w r).2 rest

/-- Every entry of the store satisfies `Q`. -/
def Store.All (Q : String → Member → Prop) (s : Store) : Prop :=
  ∀ k m, s.get k = some m → Q k m

/-- Whether the request is a parsed register body for email `e`. -/
def Request.registersEmail (e : String) : Request → Bool
  | .register (.ok newMember) => newMember.Email == e
  | _ => false

/-- Whether the request leaves `age` out (zero value) in case it is a parsed register
body; every other request counts as leaving it out. -/
def Request.omitsAge : Request → Bool
  | .register (.ok newMember) => newMember.Age == 0
  | _ => true

/-- Whether the response carries one of the failure codes 400, 401, 404, 500. -/
def Response.failed (r : Response) : Bool :=
  r.status == StatusBadRequest || r.status == StatusUnauthorized ||
  r.status == StatusNotFound || r.status == StatusInternalServerError

/-! ## A concrete instance -/

/-- A small hashing primitive to instantiate the parameter with: the digest is the
password behind a fixed marker, passwords longer than 72 characters are refused, and
comparison recomputes the digest. -/
def sampleBcrypt : Bcrypt where
  DefaultCost := 10
  GenerateFromPassword := fun _ password _ =>
    if password.length ≤ 72 then ("$2a$" ++ password, none) else ("", some "password too long")
  CompareHashAndPassword := fun hashedPassword password =>
    if hashedPassword = "$2a$" ++ password then none else some "mismatch"

/-- A sample instant of birth. -/
def sampleBirth : Time := ⟨2000, 1, 1, 0⟩

/-- A sample surrounding of a request. -/
def sampleWorld : World := ⟨⟨2026, 11, 1, 0⟩, 7⟩

/-- A sample register body. -/
def sampleBody : Member :=
  { Email := "a@b.com", Password := "pw1", Name := "A", DateOfBirth := sampleBirth,
    Gender := "F", Address := "X", Subscribed := true, Age := 0 }

/-- A sample stored record: `sampleBody` with its password hashed. -/
def sampleMember : Member := { sampleBody with Password := "$2a$pw1" }

/-- A sample store holding one record. -/
def sampleStore : Store := [("a@b.com", sampleMember)]

/-- A sample sequence of requests: register, edit, change password, view. -/
def sampleRequests : List (World × Request) :=
  [(sampleWorld, .register (.ok sampleBody)),
   (sampleWorld, .editProfile "a@b.com" (.ok ⟨⟨1999, 12, 31, 0⟩, "M", "Y", false⟩)),
   (sampleWorld, .changePassword (.ok ⟨"a@b.com", "pw1", "pw2", "pw2"⟩)),
   (sampleWorld, .viewProfile "a@b.com")]

/-- The record that `sampleRequests` leaves in the store. -/
def sampleFinal : Member :=
  { Email := "a@b.com", Password := "$2a$pw2", Name := "A", DateOfBirth := ⟨1999, 12, 31, 0⟩,
    Gender := "M", Address := "Y", Subscribed := false, Age := 0 }

/-! ## Store lemmas -/

theorem Store.get_put_self (s : Store) (k : String) (m : Member) :
    (s.put k m).get k = some m := by
  induction s with
  | nil => simp [Store.put, Store.get]
  | cons hd tl ih =>
    obtain ⟨k', m'⟩ := hd
    by_cases h : k' = k
    · simp [Store.put, Store.get, h]
    · simp [Store.put, Store.get, h, ih]

theorem Store.get_put_of_ne (s : Store) (k k₂ : String) (m : Member) (hne : k₂ ≠ k) :
    (s.put k m).get k₂ = s.get k₂ := by
  induction s with
  | nil => simp [Store.put, Store.get, Ne.symm hne]
  | cons hd tl ih =>
    obtain ⟨k', m'⟩ := hd
    by_cases h : k' = k
    · subst h
      simp [Store.put, Store.get, Ne.symm hne]
    · by_cases h₂ : k' = k₂
      · subst h₂
        simp [Store.put, Store.get, hne]
      · simp [Store.put, Store.get, h, h₂, ih]

theorem Store.get_delete_self (s : Store) (k : String) : (s.delete k).get k = none := by
  induction s with
  | nil => simp [Store.delete, Store.get]
  | cons hd tl ih =>
    obtain ⟨k', m'⟩ := hd
    by_cases h : k' = k
    · simp [Store.delete, h, ih]
    · simp [Store.delete, Store.get, h, ih]

theorem Store.get_delete_of_ne (s : Store) (k k₂ : String) (hne : k₂ ≠ k) :
    (s.delete k).get k₂ = s.get k₂ := by
  induction s with
  | nil => simp [Store.delete, Store.get]
  | cons hd tl ih =>
    obtain ⟨k', m'⟩ := hd
    by_cases h : k' = k
    · subst h
      simp [Store.delete, Store.get, Ne.symm hne, ih]
    · by_cases h₂ : k' = k₂
      · subst h₂
        simp [Store.delete, Store.get, hne]
      · simp [Store.delete, Store.get, h, h₂, ih]

theorem Store.All_nil (Q : String → Member → Prop) : Store.All Q [] := by
  intro k m h
  simp [Store.get] at h

theorem Store.All_put {Q : String → Member → Prop} {s : Store} (hs : Store.All Q s)
    (k : String) (m : Member) (hm : Q k m) : Store.All Q (s.put k m) := by
  intro k₂ m₂ h
  by_cases hk : k₂ = k
  · subst hk
    rw [Store.get_put_self] at h
    cases h
    exact hm
  · rw [Store.get_put_of_ne s k k₂ m hk] at h
    exact hs k₂ m₂ h

theorem Store.All_delete {Q : String → Member → Prop} {s : Store} (hs : Store.All Q s)
    (k : String) : Store.All Q (s.delete k) := by
  intro k₂ m₂ h
  by_cases hk : k₂ = k
  · subst hk
    rw [Store.get_delete_self] at h
    cases h
  · rw [Store.get_delete_of_ne s k k₂ hk] at h
    exact hs k₂ m₂ h

/-! ## Password helpers -/

theorem CheckPasswordHash_eq_true_iff (b : Bcrypt) (hashedPassword password : String) :
    CheckPasswordHash b hashedPassword password = true ↔
      b.CompareHashAndPassword hashedPassword password = none := by
  simp [CheckPasswordHash]

/-! ## ChangePassword: rejected requests -/

/-- C1: when the store holds a record for the body's email and `CheckPasswordHash`
rejects `current_password` against that record's stored hash, `ChangePassword` answers
401 and leaves the store as it was, whether or not `new_password` equals
`confirm_password`. -/
theorem ChangePassword_wrong_current_unauthorized (b : Bcrypt) (w : World) (members : Store)
    (d : ChangePasswordData) (member : Member)
    (hget : members.get d.Email = some member)
    (hbad : CheckPasswordHash b member.Password d.CurrentPassword = false) :
    (ChangePassword b w members (.ok d)).1.status = StatusUnauthorized ∧
    (ChangePassword b w members (.ok d)).1.status = 401 ∧
    (ChangePassword b w members (.ok d)).2 = members := by
  simp [ChangePassword, hget, hbad, StatusUnauthorized]

theorem ChangePassword_wrong_current_unauthorized_witness :
    (sampleStore.get "a@b.com" = some sampleMember ∧
      CheckPasswordHash sampleBcrypt sampleMember.Password "wrong" = false) ∧
    (ChangePassword sampleBcrypt sampleWorld sampleStore
        (.ok ⟨"a@b.com", "wrong", "pw2", "pw2"⟩)).1.status = 401 ∧
    (ChangePassword sampleBcrypt sampleWorld sampleStore
        (.ok ⟨"a@b.com", "wrong", "pw2", "other"⟩)).1.status = 401 :=
  ⟨⟨by decide, by decide⟩,
   (ChangePassword_wrong_current_unauthorized sampleBcrypt sampleWorld sampleStore
      ⟨"a@b.com", "wrong", "pw2", "pw2"⟩ sampleMember (by decide) (by decide)).2.1,
   (ChangePassword_wrong_current_unauthorized sampleBcrypt sampleWorld sampleStore
      ⟨"a@b.com", "wrong", "pw2", "other"⟩ sampleMember (by decide) (by decide)).2.1⟩

/-- C2: when the store holds a record for the body's email, `CheckPasswordHash` accepts
`current_password` against the stored hash and `new_password` differs from
`confirm_password`, `ChangePassword` answers 400, the store is the one before the call
and the record under that email still carries the old hash. -/
theorem ChangePassword_mismatch_bad_request (b : Bcrypt) (w : World) (members : Store)
    (d : ChangePasswordData) (member : Member)
    (hget : members.get d.Email = some member)
    (hok : CheckPasswordHash b member.Password d.CurrentPassword = true)
    (hne : d.NewPassword ≠ d.ConfirmPassword) :
    (ChangePassword b w members (.ok d)).1.status = StatusBadRequest ∧
    (ChangePassword b w members (.ok d)).1.status = 400 ∧
    (ChangePassword b w members (.ok d)).2 = members ∧
    (((ChangePassword b w members (.ok d)).2.get d.Email).map Member.Password
      = some member.Password) := by
  simp [ChangePassword, hget, hok, hne, StatusBadRequest]

theorem ChangePassword_mismatch_bad_request_witness :
    (sampleStore.get "a@b.com" = some sampleMember ∧
      CheckPasswordHash sampleBcrypt sampleMember.Password "pw1" = true ∧
      "pw2" ≠ "pw3") ∧
    (ChangePassword sampleBcrypt sampleWorld sampleStore
        (.ok ⟨"a@b.com", "pw1", "pw2", "pw3"⟩)).1.status = 400 ∧
    (ChangePassword sampleBcrypt sampleWorld sampleStore
        (.ok ⟨"a@b.com", "pw1", "pw2", "pw3"⟩)).2 = sampleStore :=
  ⟨⟨by decide, by decide, by decide⟩,
   (ChangePassword_mismatch_bad_request sampleBcrypt sampleWorld sampleStore
      ⟨"a@b.com", "pw1", "pw2", "pw3"⟩ sampleMember (by decide) (by decide) (by decide)).2.1,
   (ChangePassword_mismatch_bad_request sampleBcrypt sampleWorld sampleStore
      ⟨"a@b.com", "pw1", "pw2", "pw3"⟩ sampleMember (by decide) (by decide) (by decide)).2.2.1⟩

/-! ## ChangePassword: accepted requests -/

/-- C7: when the store holds a record for the body's email, `CheckPasswordHash` accepts
`current_password` against the stored hash, `new_password` equals `confirm_password`
and `HashPassword` returns no error, `ChangePassword` answers 200; afterwards the record
under that email is the old one with `Password` replaced by the digest that
`HashPassword` returned for `new_password`, and the lookup of every other email gives
what it gave before. -/
theorem ChangePassword_ok (b : Bcrypt) (w : World) (members : Store)
    (d : ChangePasswordData) (member : Member)
    (hget : members.get d.Email = some member)
    (hok : CheckPasswordHash b member.Password d.CurrentPassword = true)
    (heq : d.NewPassword = d.ConfirmPassword)
    (hhash : (HashPassword b w.rand d.NewPassword).2 = none) :
    (ChangePassword b w members (.ok d)).1.status = 200 ∧
    (ChangePassword b w members (.ok d)).2.get d.Email
      = some { member with Password := (HashPassword b w.rand d.NewPassword).1 } ∧
    (∀ k, k ≠ d.Email →
      (ChangePassword b w members (.ok d)).2.get k = members.get k) := by
  rcases hp : HashPassword b w.rand d.NewPassword with ⟨digest, err⟩
  rw [hp] at hhash
  simp only at hhash
  subst hhash
  have hp' : HashPassword b w.rand d.ConfirmPassword = (digest, none) := heq ▸ hp
  refine ⟨?_, ?_, ?_⟩
  · simp [ChangePassword, hget, hok, heq, hp', StatusOK]
  · simp [ChangePassword, hget, hok, heq, hp', Store.get_put_self]
  · intro k hk
    simp [ChangePassword, hget, hok, heq, hp', Store.get_put_of_ne _ _ _ _ hk]

theorem ChangePassword_ok_witness :
    (sampleStore.get "a@b.com" = some sampleMember ∧
      CheckPasswordHash sampleBcrypt sampleMember.Password "pw1" = true ∧
      (HashPassword sampleBcrypt sampleWorld.rand "pw2").2 = none) ∧
    (ChangePassword sampleBcrypt sampleWorld sampleStore
        (.ok ⟨"a@b.com", "pw1", "pw2", "pw2"⟩)).1.status = 200 ∧
    (ChangePassword sampleBcrypt sampleWorld sampleStore
        (.ok ⟨"a@b.com", "pw1", "pw2", "pw2"⟩)).2.get "a@b.com"
      = some { sampleMember with Password := "$2a$pw2" } :=
  ⟨⟨by decide, by decide, by decide⟩,
   (ChangePassword_ok sampleBcrypt sampleWorld sampleStore
      ⟨"a@b.com", "pw1", "pw2", "pw2"⟩ sampleMember (by decide) (by decide) rfl
      (by decide)).1,
   (ChangePassword_ok sampleBcrypt sampleWorld sampleStore
      ⟨"a@b.com", "pw1", "pw2", "pw2"⟩ sampleMember (by decide) (by decide) rfl
      (by decide)).2.1⟩

/-! ## EditProfile -/

/-- C3: when the store holds a record for the queried email and the body was parsed,
`EditProfile` answers 200; the record then stored under that email is the record
returned in the response, its `DateOfBirth`, `Gender`, `Address` and `Subscribed` are
the submitted ones, its `Email`, `Name` and `Password` are those of the record before
the call, and the lookup of every other email gives what it gave before. -/
theorem EditProfile_ok (members : Store) (email : String) (u : UpdatedData)
    (member : Member) (hget : members.get email = some member) :
    (EditProfile members email (.ok u)).1.status = 200 ∧
    (∃ m', (EditProfile members email (.ok u)).2.get email = some m' ∧
      (EditProfile members email (.ok u)).1.payload = .messageMember "Profile updated" m' ∧
      m'.DateOfBirth = u.DateOfBirth ∧ m'.Gender = u.Gender ∧
      m'.Address = u.Address ∧ m'.Subscribed = u.Subscribed ∧
      m'.Email = member.Email ∧ m'.Name = member.Name ∧ m'.Password = member.Password) ∧
    (∀ k, k ≠ email → (EditProfile members email (.ok u)).2.get k = members.get k) := by
  refine ⟨?_, ?_, ?_⟩
  · simp [EditProfile, hget, StatusOK]
  · refine ⟨{ member with DateOfBirth := u.DateOfBirth, Gender := u.Gender,
                           Address := u.Address, Subscribed := u.Subscribed }, ?_⟩
    simp [EditProfile, hget, Store.get_put_self]
  · intro k hk
    simp [EditProfile, hget, Store.get_put_of_ne _ _ _ _ hk]

theorem EditProfile_ok_witness :
    sampleStore.get "a@b.com" = some sampleMember ∧
    (EditProfile sampleStore "a@b.com" (.ok ⟨⟨1999, 12, 31, 0⟩, "M", "Y", false⟩)).1.status
      = 200 ∧
    (EditProfile sampleStore "a@b.com" (.ok ⟨⟨1999, 12, 31, 0⟩, "M", "Y", false⟩)).2.get
        "a@b.com"
      = some { sampleMember with
          DateOfBirth := ⟨1999, 12, 31, 0⟩, Gender := "M", Address := "Y",
          Subscribed := false } :=
  ⟨by decide,
   (EditProfile_ok sampleStore "a@b.com" ⟨⟨1999, 12, 31, 0⟩, "M", "Y", false⟩ sampleMember
      (by decide)).1,
   by decide⟩

/-! ## Register followed by ViewProfile -/

/-- C4: for every store, with or without an earlier record for the same email, and
every parsed register body for which `HashPassword` returns no error, `Register`
answers 200 and the record stored under the body's email is the body with `Password`
replaced by the digest; a `ViewProfile` of that email on the resulting store answers
200 with a record whose `Email`, `Name`, `DateOfBirth`, `Gender`, `Address` and
`Subscribed` are the submitted ones, whose `Password` is the digest and whose `Age` is
the year of `time.Now()` minus the year of birth. -/
theorem Register_then_ViewProfile (b : Bcrypt) (w w' : World) (members : Store)
    (newMember : Member) (hhash : (HashPassword b w.rand newMember.Password).2 = none) :
    (Register b w members (.ok newMember)).1.status = 200 ∧
    (Register b w members (.ok newMember)).2.get newMember.Email
      = some { newMember with Password := (HashPassword b w.rand newMember.Password).1 } ∧
    (ViewProfile w' (Register b w members (.ok newMember)).2 newMember.Email).1.status
      = 200 ∧
    (∃ v, (ViewProfile w' (Register b w members (.ok newMember)).2 newMember.Email).1.payload
        = .member v ∧
      v.Email = newMember.Email ∧ v.Name = newMember.Name ∧
      v.DateOfBirth = newMember.DateOfBirth ∧ v.Gender = newMember.Gender ∧
      v.Address = newMember.Address ∧ v.Subscribed = newMember.Subscribed ∧
      v.Password = (HashPassword b w.rand newMember.Password).1 ∧
      v.Age = w'.now.Year - newMember.DateOfBirth.Year) := by
  rcases hp : HashPassword b w.rand newMember.Password with ⟨digest, err⟩
  rw [hp] at hhash
  simp only at hhash
  subst hhash
  have hstore : (Register b w members (.ok newMember)).2.get newMember.Email
      = some { newMember with Password := digest } := by
    simp [Register, hp, Store.get_put_self]
  refine ⟨?_, hstore, ?_, ?_⟩
  · simp [Register, hp, StatusOK]
  · simp [ViewProfile, hstore, StatusOK]
  · refine ⟨{ newMember with Password := digest,
                              Age := w'.now.Year - newMember.DateOfBirth.Year }, ?_⟩
    simp [ViewProfile, hstore]

theorem Register_then_ViewProfile_witness :
    (HashPassword sampleBcrypt sampleWorld.rand sampleBody.Password).2 = none ∧
    (Register sampleBcrypt sampleWorld sampleStore (.ok sampleBody)).1.status = 200 ∧
    (ViewProfile sampleWorld (Register sampleBcrypt sampleWorld sampleStore
        (.ok sampleBody)).2 sampleBody.Email).1
      = ⟨200, .member { sampleBody with Password := "$2a$pw1", Age := 26 }⟩ :=
  ⟨by decide,
   (Register_then_ViewProfile sampleBcrypt sampleWorld sampleWorld sampleStore sampleBody
      (by decide)).1,
   by decide⟩

/-! ## Effect of one request on the store -/

/-- The store after a request is the store before it, or the request was answered 200
and the store results from one assignment or one `delete`. -/
theorem serve_store_cases (b : Bcrypt) (members : Store) (w : World) (r : Request) :
    (serve b members w r).2 = members ∨
    ((serve b members w r).1.status = 200 ∧
      ((∃ k m, (serve b members w r).2 = members.put k m) ∨
       (∃ k, (serve b members w r).2 = members.delete k))) := by
  cases r with
  | register bind =>
    cases bind with
    | error err => left; simp [serve, Register]
    | ok newMember =>
      rcases hp : HashPassword b w.rand newMember.Password with ⟨digest, err⟩
      cases err with
      | some e => left; simp [serve, Register, hp]
      | none =>
        right
        refine ⟨by simp [serve, Register, hp, StatusOK],
          Or.inl ⟨newMember.Email, { newMember with Password := digest }, ?_⟩⟩
        simp [serve, Register, hp]
  | viewProfile email =>
    left
    cases hg : members.get email <;> simp [serve, ViewProfile, hg]
  | editProfile email bind =>
    cases hg : members.get email with
    | none => left; simp [serve, EditProfile, hg]
    | some member =>
      cases bind with
      | error err => left; simp [serve, EditProfile, hg]
      | ok u =>
        right
        refine ⟨by simp [serve, EditProfile, hg, StatusOK],
          Or.inl ⟨email, { member with DateOfBirth := u.DateOfBirth, Gender := u.Gender,
                                       Address := u.Address, Subscribed := u.Subscribed }, ?_⟩⟩
        simp [serve, EditProfile, hg]
  | deleteProfile email =>
    cases hg : members.get email with
    | none => left; simp [serve, DeleteProfile, hg]
    | some member =>
      right
      refine ⟨by simp [serve, DeleteProfile, hg, StatusOK], Or.inr ⟨email, ?_⟩⟩
      simp [serve, DeleteProfile, hg]
  | changePassword bind =>
    cases bind with
    | error err => left; simp [serve, ChangePassword]
    | ok d =>
      cases hg : members.get d.Email with
      | none => left; simp [serve, ChangePassword, hg]
      | some member =>
        cases hc : CheckPasswordHash b member.Password d.CurrentPassword with
        | false => left; simp [serve, ChangePassword, hg, hc]
        | true =>
          by_cases hne : d.NewPassword = d.ConfirmPassword
          · rcases hp : HashPassword b w.rand d.NewPassword with ⟨digest, err⟩
            have hp' : HashPassword b w.rand d.ConfirmPassword = (digest, err) := hne ▸ hp
            cases err with
            | some e => left; simp [serve, ChangePassword, hg, hc, hne, hp']
            | none =>
              right
              refine ⟨by simp [serve, ChangePassword, hg, hc, hne, hp', StatusOK],
                Or.inl ⟨d.Email, { member with Password := digest }, ?_⟩⟩
              simp [serve, ChangePassword, hg, hc, hne, hp']
          · left; simp [serve, ChangePassword, hg, hc, hne]

/-- Every response carries one of the five status codes. -/
theorem serve_status (b : Bcrypt) (members : Store) (w : World) (r : Request) :
    (serve b members w r).1.status = 200 ∨ (serve b members w r).1.status = 400 ∨
    (serve b members w r).1.status = 401 ∨ (serve b members w r).1.status = 404 ∨
    (serve b members w r).1.status = 500 := by
  cases r with
  | register bind =>
    cases bind with
    | error err => simp [serve, Register, StatusBadRequest]
    | ok newMember =>
      rcases hp : HashPassword b w.rand newMember.Password with ⟨digest, err⟩
      cases err <;> simp [serve, Register, hp, StatusOK, StatusInternalServerError]
  | viewProfile email =>
    cases hg : members.get email <;> simp [serve, ViewProfile, hg, StatusOK, StatusNotFound]
  | editProfile email bind =>
    cases hg : members.get email with
    | none => simp [serve, EditProfile, hg, StatusNotFound]
    | some member =>
      cases bind <;> simp [serve, EditProfile, hg, StatusOK, StatusBadRequest]
  | deleteProfile email =>
    cases hg : members.get email <;>
      simp [serve, DeleteProfile, hg, StatusOK, StatusNotFound]
  | changePassword bind =>
    cases bind with
    | error err => simp [serve, ChangePassword, StatusBadRequest]
    | ok d =>
      cases hg : members.get d.Email with
      | none => simp [serve, ChangePassword, hg, StatusNotFound]
      | some member =>
        cases hc : CheckPasswordHash b member.Password d.CurrentPassword with
        | false => simp [serve, ChangePassword, hg, hc, StatusUnauthorized]
        | true =>
          by_cases hne : d.NewPassword = d.ConfirmPassword
          · rcases hp : HashPassword b w.rand d.NewPassword with ⟨digest, err⟩
            have hp' : HashPassword b w.rand d.ConfirmPassword = (digest, err) := hne ▸ hp
            cases err <;>
              simp [serve, ChangePassword, hg, hc, hne, hp', StatusOK,
                StatusInternalServerError]
          · simp [serve, ChangePassword, hg, hc, hne, StatusBadRequest]

/-- C6: for each of the five handlers, a response with status 400, 401, 404 or 500
comes with the store of before the call; and whatever the request, the store after it
is the store before it, or else the response is 200 and the store results from the
one before by a single assignment or a single `delete`. -/
theorem failure_leaves_store_unchanged (b : Bcrypt) (w : World) (members : Store) :
    (∀ bind, (Register b w members bind).1.failed = true →
      (Register b w members bind).2 = members) ∧
    (∀ email, (ViewProfile w members email).1.failed = true →
      (ViewProfile w members email).2 = members) ∧
    (∀ email bind, (EditProfile members email bind).1.failed = true →
      (EditProfile members email bind).2 = members) ∧
    (∀ email, (DeleteProfile members email).1.failed = true →
      (DeleteProfile members email).2 = members) ∧
    (∀ bind, (ChangePassword b w members bind).1.failed = true →
      (ChangePassword b w members bind).2 = members) ∧
    (∀ r, (serve b members w r).2 = members ∨
      ((serve b members w r).1.status = 200 ∧
        ((∃ k m, (serve b members w r).2 = members.put k m) ∨
         (∃ k, (serve b members w r).2 = members.delete k)))) := by
  have key : ∀ r, (serve b members w r).1.failed = true → (serve b members w r).2 = members := by
    intro r hf
    rcases serve_store_cases b members w r with h | ⟨h200, _⟩
    · exact h
    · simp [Response.failed, h200, StatusBadRequest, StatusUnauthorized, StatusNotFound,
        StatusInternalServerError] at hf
  exact ⟨fun bind => key (.register bind), fun email => key (.viewProfile email),
    fun email bind => key (.editProfile email bind), fun email => key (.deleteProfile email),
    fun bind => key (.changePassword bind), serve_store_cases b members w⟩

/-! ## Invariants of the reachable stores -/

/-- A property of the entries that `Register` establishes for the entry it writes and
that the field updates of `EditProfile` and `ChangePassword` keep is kept by every
request. -/
theorem serve_All {Q : String → Member → Prop}
    (hEdit : ∀ k m (u : UpdatedData), Q k m →
      Q k { m with DateOfBirth := u.DateOfBirth, Gender := u.Gender,
                   Address := u.Address, Subscribed := u.Subscribed })
    (hPw : ∀ k m (digest : String), Q k m → Q k { m with Password := digest })
    (b : Bcrypt) (members : Store) (w : World) (r : Request)
    (hreg : ∀ newMember digest, r = .register (.ok newMember) →
      Q newMember.Email { newMember with Password := digest })
    (hs : Store.All Q members) : Store.All Q (serve b members w r).2 := by
  cases r with
  | register bind =>
    cases bind with
    | error err => simpa [serve, Register] using hs
    | ok newMember =>
      rcases hp : HashPassword b w.rand newMember.Password with ⟨digest, err⟩
      cases err with
      | some e => simpa [serve, Register, hp] using hs
      | none =>
        have := Store.All_put hs newMember.Email { newMember with Password := digest }
          (hreg newMember digest rfl)
        simpa [serve, Register, hp] using this
  | viewProfile email =>
    cases hg : members.get email <;> simpa [serve, ViewProfile, hg] using hs
  | editProfile email bind =>
    cases hg : members.get email with
    | none => simpa [serve, EditProfile, hg] using hs
    | some member =>
      cases bind with
      | error err => simpa [serve, EditProfile, hg] using hs
      | ok u =>
        have := Store.All_put hs email _ (hEdit email member u (hs email member hg))
        simpa [serve, EditProfile, hg] using this
  | deleteProfile email =>
    cases hg : members.get email with
    | none => simpa [serve, DeleteProfile, hg] using hs
    | some member =>
      have := Store.All_delete hs email
      simpa [serve, DeleteProfile, hg] using this
  | changePassword bind =>
    cases bind with
    | error err => simpa [serve, ChangePassword] using hs
    | ok d =>
      cases hg : members.get d.Email with
      | none => simpa [serve, ChangePassword, hg] using hs
      | some member =>
        cases hc : CheckPasswordHash b member.Password d.CurrentPassword with
        | false => simpa [serve, ChangePassword, hg, hc] using hs
        | true =>
          by_cases hne : d.NewPassword = d.ConfirmPassword
          · rcases hp : HashPassword b w.rand d.NewPassword with ⟨digest, err⟩
            have hp' : HashPassword b w.rand d.ConfirmPassword = (digest, err) := hne ▸ hp
            cases err with
            | some e => simpa [serve, ChangePassword, hg, hc, hne, hp'] using hs
            | none =>
              have := Store.All_put hs d.Email _ (hPw d.Email member digest (hs d.Email member hg))
              simpa [serve, ChangePassword, hg, hc, hne, hp'] using this
          · simpa [serve, ChangePassword, hg, hc, hne] using hs

/-- The same for a sequence of requests. -/
theorem serveAll_All {Q : String → Member → Prop}
    (hEdit : ∀ k m (u : UpdatedData), Q k m →
      Q k { m with DateOfBirth := u.DateOfBirth, Gender := u.Gender,
                   Address := u.Address, Subscribed := u.Subscribed })
    (hPw : ∀ k m (digest : String), Q k m → Q k { m with Password := digest })
    (b : Bcrypt) (cs : List (World × Request)) :
    ∀ (members : Store),
      (∀ c ∈ cs, ∀ newMember digest, c.2 = .register (.ok newMember) →
        Q newMember.Email { newMember with Password := digest }) →
      Store.All Q members → Store.All Q (serveAll b members cs) := by
  induction cs with
  | nil => intro members _ hs; simpa [serveAll] using hs
  | cons c rest ih =>
    intro members hreg hs
    obtain ⟨w, r⟩ := c
    simp only [serveAll]
    apply ih
    · intro c hc
      exact hreg c (List.mem_cons_of_mem _ hc)
    · exact serve_All hEdit hPw b members w r
        (fun newMember digest h => hreg (w, r) (List.mem_cons_self _ _) newMember digest h) hs

/-- A request that is not a parsed register body for `e` keeps `e` absent. -/
theorem serve_get_none (b : Bcrypt) (members : Store) (w : World) (r : Request) (e : String)
    (hr : r.registersEmail e = false) (hnone : members.get e = none) :
    (serve b members w r).2.get e = none := by
  cases r with
  | register bind =>
    cases bind with
    | error err => simpa [serve, Register] using hnone
    | ok newMember =>
      have hne : e ≠ newMember.Email := by
        intro he
        simp [Request.registersEmail, he] at hr
      rcases hp : HashPassword b w.rand newMember.Password with ⟨digest, err⟩
      cases err with
      | some err => simpa [serve, Register, hp] using hnone
      | none => simp [serve, Register, hp, Store.get_put_of_ne _ _ _ _ hne, hnone]
  | viewProfile email =>
    cases hg : members.get email <;> simpa [serve, ViewProfile, hg] using hnone
  | editProfile email bind =>
    cases hg : members.get email with
    | none => simpa [serve, EditProfile, hg] using hnone
    | some member =>
      have hne : e ≠ email := by
        intro he
        rw [he, hg] at hnone
        cases hnone
      cases bind with
      | error err => simpa [serve, EditProfile, hg] using hnone
      | ok u => simp [serve, EditProfile, hg, Store.get_put_of_ne _ _ _ _ hne, hnone]
  | deleteProfile email =>
    cases hg : members.get email with
    | none => simpa [serve, DeleteProfile, hg] using hnone
    | some member =>
      have hne : e ≠ email := by
        intro he
        rw [he, hg] at hnone
        cases hnone
      simp [serve, DeleteProfile, hg, Store.get_delete_of_ne _ _ _ hne, hnone]
  | changePassword bind =>
    cases bind with
    | error err => simpa [serve, ChangePassword] using hnone
    | ok d =>
      cases hg : members.get d.Email with
      | none => simpa [serve, ChangePassword, hg] using hnone
      | some member =>
        have hne : e ≠ d.Email := by
          intro he
          rw [he, hg] at hnone
          cases hnone
        cases hc : CheckPasswordHash b member.Password d.CurrentPassword with
        | false => simpa [serve, ChangePassword, hg, hc] using hnone
        | true =>
          by_cases heq : d.NewPassword = d.ConfirmPassword
          · rcases hp : HashPassword b w.rand d.NewPassword with ⟨digest, err⟩
            have hp' : HashPassword b w.rand d.ConfirmPassword = (digest, err) := heq ▸ hp
            cases err with
            | some err => simpa [serve, ChangePassword, hg, hc, heq, hp'] using hnone
            | none =>
              simp [serve, ChangePassword, hg, hc, heq, hp',
                Store.get_put_of_ne _ _ _ _ hne, hnone]
          · simpa [serve, ChangePassword, hg, hc, heq] using hnone

/-- The same for a sequence of requests. -/
theorem serveAll_get_none (b : Bcrypt) (e : String) (cs : List (World × Request)) :
    ∀ (members : Store), (∀ c ∈ cs, c.2.registersEmail e = false) →
      members.get e = none → (serveAll b members cs).get e = none := by
  induction cs with
  | nil => intro members _ hnone; simpa [serveAll] using hnone
  | cons c rest ih =>
    intro members hreg hnone
    obtain ⟨w, r⟩ := c
    simp only [serveAll]
    apply ih
    · intro c hc
      exact hreg c (List.mem_cons_of_mem _ hc)
    · exact serve_get_none b members w r e (hreg (w, r) (List.mem_cons_self _ _)) hnone

/-- On a store whose records all have `Age` zero, a request that leaves `age` out is
answered with a `member` under a "message" only if that member has `Age` zero. -/
theorem serve_messageMember_age (b : Bcrypt) (members : Store) (w : World) (r : Request)
    (hs : Store.All (fun _ m => m.Age = 0) members) (hr : r.omitsAge = true)
    (msg : String) (m : Member)
    (hp : (serve b members w r).1.payload = .messageMember msg m) : m.Age = 0 := by
  cases r with
  | register bind =>
    cases bind with
    | error err => simp [serve, Register] at hp
    | ok newMember =>
      have hage : newMember.Age = 0 := by simpa [Request.omitsAge] using hr
      rcases hh : HashPassword b w.rand newMember.Password with ⟨digest, err⟩
      cases err with
      | some err => simp [serve, Register, hh] at hp
      | none =>
        simp [serve, Register, hh] at hp
        rw [← hp.2]
        exact hage
  | viewProfile email =>
    cases hg : members.get email <;> simp [serve, ViewProfile, hg] at hp
  | editProfile email bind =>
    cases hg : members.get email with
    | none => simp [serve, EditProfile, hg] at hp
    | some member =>
      cases bind with
      | error err => simp [serve, EditProfile, hg] at hp
      | ok u =>
        simp [serve, EditProfile, hg] at hp
        rw [← hp.2]
        exact hs email member hg
  | deleteProfile email =>
    cases hg : members.get email <;> simp [serve, DeleteProfile, hg] at hp
  | changePassword bind =>
    cases bind with
    | error err => simp [serve, ChangePassword] at hp
    | ok d =>
      cases hg : members.get d.Email with
      | none => simp [serve, ChangePassword, hg] at hp
      | some member =>
        cases hc : CheckPasswordHash b member.Password d.CurrentPassword with
        | false => simp [serve, ChangePassword, hg, hc] at hp
        | true =>
          by_cases heq : d.NewPassword = d.ConfirmPassword
          · rcases hh : HashPassword b w.rand d.NewPassword with ⟨digest, err⟩
            have hh' : HashPassword b w.rand d.ConfirmPassword = (digest, err) := heq ▸ hh
            cases err <;> simp [serve, ChangePassword, hg, hc, heq, hh'] at hp
          · simp [serve, ChangePassword, hg, hc, heq] at hp

/-! ## DeleteProfile and lookups of absent emails -/

/-- C5: when the store holds a record for `email`, `DeleteProfile` answers 200, the
email is absent afterwards and the lookup of every other email gives what it gave
before; on the resulting store `ViewProfile` of that email answers 404, and a second
`DeleteProfile` of it answers 404 and returns that store as it is.  `ViewProfile`
answers 404 for every email absent from the store, in particular for an email that no
parsed register body carried in the requests served since the empty store. -/
theorem DeleteProfile_then_not_found (members : Store) (email : String) (member : Member)
    (hget : members.get email = some member) :
    (DeleteProfile members email).1.status = 200 ∧
    (DeleteProfile members email).2.get email = none ∧
    (∀ k, k ≠ email → (DeleteProfile members email).2.get k = members.get k) ∧
    (∀ w, (ViewProfile w (DeleteProfile members email).2 email).1.status = 404) ∧
    (DeleteProfile (DeleteProfile members email).2 email).1.status = 404 ∧
    (DeleteProfile (DeleteProfile members email).2 email).2 = (DeleteProfile members email).2 ∧
    (∀ w (s : Store) e, s.get e = none → (ViewProfile w s e).1.status = 404) ∧
    (∀ b w (cs : List (World × Request)) e, (∀ c ∈ cs, c.2.registersEmail e = false) →
      (ViewProfile w (serveAll b [] cs) e).1.status = 404) := by
  have hstore : (DeleteProfile members email).2 = members.delete email := by
    simp [DeleteProfile, hget]
  have habsent : (DeleteProfile members email).2.get email = none := by
    rw [hstore]; exact Store.get_delete_self members email
  refine ⟨?_, habsent, ?_, ?_, ?_, ?_, ?_, ?_⟩
  · simp [DeleteProfile, hget, StatusOK]
  · intro k hk
    rw [hstore]; exact Store.get_delete_of_ne members email k hk
  · intro w
    simp [ViewProfile, habsent, StatusNotFound]
  · rw [hstore] at habsent ⊢
    simp [DeleteProfile, habsent, StatusNotFound]
  · rw [hstore] at habsent ⊢
    simp [DeleteProfile, habsent]
  · intro w s e hnone
    simp [ViewProfile, hnone, StatusNotFound]
  · intro b w cs e hcs
    have := serveAll_get_none b e cs [] hcs (by simp [Store.get])
    simp [ViewProfile, this, StatusNotFound]

theorem DeleteProfile_then_not_found_witness :
    sampleStore.get "a@b.com" = some sampleMember ∧
    (DeleteProfile sampleStore "a@b.com").1.status = 200 ∧
    (ViewProfile sampleWorld (DeleteProfile sampleStore "a@b.com").2 "a@b.com").1.status
      = 404 ∧
    (DeleteProfile (DeleteProfile sampleStore "a@b.com").2 "a@b.com").1.status = 404 :=
  ⟨by decide,
   (DeleteProfile_then_not_found sampleStore "a@b.com" sampleMember (by decide)).1,
   (DeleteProfile_then_not_found sampleStore "a@b.com" sampleMember (by decide)).2.2.2.1
      sampleWorld,
   (DeleteProfile_then_not_found sampleStore "a@b.com" sampleMember (by decide)).2.2.2.2.1⟩

/-! ## Stored records: key and age -/

/-- C10: in the store reached from the empty store by any sequence of requests, the
record found under a key has that key as its `Email`. -/
theorem stored_email_eq_key (b : Bcrypt) (cs : List (World × Request)) (k : String)
    (m : Member) (hget : (serveAll b [] cs).get k = some m) : m.Email = k := by
  have hall : Store.All (fun k m => m.Email = k) (serveAll b [] cs) :=
    serveAll_All (fun _ _ _ h => h) (fun _ _ _ h => h) b cs []
      (fun _ _ _ _ _ => rfl) (Store.All_nil _)
  exact hall k m hget

theorem stored_email_eq_key_witness :
    (serveAll sampleBcrypt [] sampleRequests).get "a@b.com" = some sampleFinal ∧
    sampleFinal.Email = "a@b.com" :=
  ⟨by decide,
   stored_email_eq_key sampleBcrypt sampleRequests "a@b.com" sampleFinal (by decide)⟩

/-- C9 (as stated) fails: registering a body that carries `age` 30 into the empty
store leaves a record whose stored `Age` is 30, and the answer of `Register` carries
that age too, so not every reachable store has all stored ages zero. -/
theorem stored_age_counterexample :
    ((serveAll sampleBcrypt []
        [(sampleWorld, .register (.ok { sampleBody with Age := 30 }))]).get "a@b.com").map
      Member.Age = some 30 ∧
    (Register sampleBcrypt sampleWorld [] (.ok { sampleBody with Age := 30 })).1
      = ⟨200, .messageMember "Registration successful" { sampleMember with Age := 30 }⟩ ∧
    ¬ (∀ (b : Bcrypt) (cs : List (World × Request)) (k : String) (m : Member),
        (serveAll b [] cs).get k = some m → m.Age = 0) := by
  refine ⟨by decide, by decide, ?_⟩
  intro h
  have := h sampleBcrypt [(sampleWorld, .register (.ok { sampleBody with Age := 30 }))]
    "a@b.com" { sampleMember with Age := 30 } (by decide)
  simp at this

/-- C9 (amended): in the store reached from the empty store by a sequence of requests
whose parsed register bodies all leave `age` out, every stored record has `Age` zero,
and a further such request is answered with a member under a "message" (the answers of
`Register` and `EditProfile`) only with `Age` zero; and for every store whatsoever, the
record that `ViewProfile` returns is the stored one with `Age` set to the year of
`time.Now()` minus the year of birth, whatever `Age` the stored record holds, while
the store itself is returned as it was. -/
theorem stored_age_zero_of_omitted (b : Bcrypt) (cs : List (World × Request))
    (hcs : ∀ c ∈ cs, c.2.omitsAge = true) :
    (∀ k m, (serveAll b [] cs).get k = some m → m.Age = 0) ∧
    (∀ w r msg m, r.omitsAge = true →
      (serve b (serveAll b [] cs) w r).1.payload = .messageMember msg m → m.Age = 0) ∧
    (∀ w (members : Store) email member, members.get email = some member →
      ViewProfile w members email
        = (⟨200, .member { member with Age := w.now.Year - member.DateOfBirth.Year }⟩,
           members)) := by
  have hreg : ∀ c ∈ cs, ∀ (newMember : Member) (digest : String),
      c.2 = .register (.ok newMember) →
      (fun (_ : String) (m : Member) => m.Age = 0) newMember.Email
        { newMember with Password := digest } := by
    intro c hc newMember digest hreq
    have := hcs c hc
    rw [hreq] at this
    simpa [Request.omitsAge] using this
  have hall : Store.All (fun _ m => m.Age = 0) (serveAll b [] cs) :=
    serveAll_All (Q := fun _ m => m.Age = 0) (fun _ _ _ h => h) (fun _ _ _ h => h) b cs []
      hreg (Store.All_nil _)
  refine ⟨hall, ?_, ?_⟩
  · intro w r msg m hr hp
    exact serve_messageMember_age b _ w r hall hr msg m hp
  · intro w members email member hget
    simp [ViewProfile, hget, StatusOK]

theorem stored_age_zero_of_omitted_witness :
    (∀ c ∈ sampleRequests, c.2.omitsAge = true) ∧
    (serveAll sampleBcrypt [] sampleRequests).get "a@b.com" = some sampleFinal ∧
    sampleFinal.Age = 0 ∧
    (ViewProfile sampleWorld [("a@b.com", { sampleMember with Age := 30 })] "a@b.com").1
      = ⟨200, .member { sampleMember with Age := 26 }⟩ :=
  ⟨by decide, by decide,
   (stored_age_zero_of_omitted sampleBcrypt sampleRequests (by decide)).1 "a@b.com"
      sampleFinal (by decide),
   by decide⟩

end api
